import Mathlib

/-!
# The `proxy` command of the Ory CLI (`cmd/cloudx/proxy/cmd_proxy.go`)

A shallow embedding of `NewProxyCommand`'s `RunE` closure and of
`getEndpointURL`, together with the library functions they call
(`stringsx.Coalesce`, `fmt.Sprintf` for the two formats used, and Go's
`net/url.ParseRequestURI`). The function `run`, to which `RunE` hands the config, is in
`proxy.go`, which is not among the source files; its management endpoint is described
after the specification.

Representation of Go values:

* a Go `string` is a byte sequence; it is represented by a `String` holding one
  character per byte, so an ASCII string is represented by itself;
* a Go `int` is an `Int`;
* a Go pointer `*url.URL` is an `Option url.URL`, `none` being `nil`;
* a Go `error` is an `Option GoError`, `none` being `nil`.
-/

deriving instance DecidableEq for Except

/-! ## Go's `strings` package, the functions used below -/

namespace strings

/-- List form of `HasPrefix`. -/
def hasPrefixL : List Char → List Char → Bool
  | _, [] => true
  | [], _ :: _ => false
  | c :: s, d :: p => c == d && hasPrefixL s p

/-- Go `strings.HasPrefix(s, p)`. -/
def HasPrefix (s p : String) : Bool := hasPrefixL s.data p.data

/-- Go `strings.HasSuffix(s, p)`. -/
def HasSuffix (s p : String) : Bool := hasPrefixL s.data.reverse p.data.reverse

/-- List form of `Index`: the position of the first occurrence of `sub`. -/
def indexL : List Char → List Char → Option Nat
  | [], sub => if sub.isEmpty then some 0 else none
  | c :: s, sub =>
    if hasPrefixL (c :: s) sub then some 0
    else (indexL s sub).map (· + 1)

/-- Go `strings.Index(s, sub)`; `none` stands for `-1`. -/
def Index (s sub : String) : Option Nat := indexL s.data sub.data

/-- List form of `LastIndex` for a one-byte separator. -/
def lastIndexL : List Char → Char → Option Nat
  | [], _ => none
  | c :: s, d =>
    match lastIndexL s d with
    | some i => some (i + 1)
    | none => if c == d then some 0 else none

/-- Go `strings.LastIndex(s, sep)` for a one-byte `sep`; `none` stands for `-1`. -/
def LastIndex (s : String) (sep : Char) : Option Nat := lastIndexL s.data sep

/-- Go `strings.Contains(s, sep)` for a one-byte `sep`. -/
def Contains (s : String) (sep : Char) : Bool := s.data.contains sep

/-- Go `strings.Count(s, sep)` for a one-byte `sep`. -/
def Count (s : String) (sep : Char) : Nat := s.data.count sep

/-- List form of `Cut`. -/
def cutL : List Char → Char → List Char × List Char × Bool
  | [], _ => ([], [], false)
  | c :: s, d =>
    if c == d then ([], s, true)
    else
      let r := cutL s d
      (c :: r.1, r.2.1, r.2.2)

/-- Go `strings.Cut(s, sep)` for a one-byte `sep`: the text before and after the
first `sep`, and whether `sep` was found. -/
def Cut (s : String) (sep : Char) : String × String × Bool :=
  let r := cutL s.data sep
  (String.mk r.1, String.mk r.2.1, r.2.2)

/-- Lower-casing of one byte. -/
def lowerByte (c : Char) : Char :=
  if 'A'.toNat ≤ c.toNat ∧ c.toNat ≤ 'Z'.toNat then Char.ofNat (c.toNat + 32) else c

/-- Go `strings.ToLower(s)` on the strings it is applied to below (a URL scheme, which
holds only ASCII letters, digits, `+`, `-` and `.`). -/
def ToLower (s : String) : String := String.mk (s.data.map lowerByte)

/-- Go slice expression `s[i:]`. -/
def sliceFrom (s : String) (i : Nat) : String := String.mk (s.data.drop i)

/-- Go slice expression `s[:i]`. -/
def sliceTo (s : String) (i : Nat) : String := String.mk (s.data.take i)

end strings

/-! ## Go's `net/url` package: `ParseRequestURI` (as of Go 1.17 / 1.18)

The standard library is not part of the repository; `RunE` and `getEndpointURL` call
`url.ParseRequestURI`, which is embedded here function by function: `parse`, `getScheme`,
`parseAuthority`, `parseHost`, `validOptionalPort`, `validUserinfo`, `setPath`,
`unescape`, `escape` and `shouldEscape`; `(*URL).String` with `EscapedPath`,
`EscapedFragment` and `validEncoded` gives the text of a parsed URL. -/

namespace url

/-- Go `url.Userinfo`. -/
structure Userinfo where
  username : String
  password : String
  passwordSet : Bool
  deriving DecidableEq, Repr

/-- Go `url.URL`. -/
structure URL where
  Scheme : String := ""
  Opaque : String := ""
  User : Option Userinfo := none
  Host : String := ""
  Path : String := ""
  RawPath : String := ""
  ForceQuery : Bool := false
  RawQuery : String := ""
  Fragment : String := ""
  RawFragment : String := ""
  deriving DecidableEq, Repr

/-- The errors `parse` can produce (the `Err` field of a `*url.Error`). -/
inductive ParseError where
  /-- Go `errors.New("net/url: invalid control character in URL")`. -/
  | invalidControlCharacter
  /-- Go `errors.New("empty url")`. -/
  | emptyURL
  /-- Go `errors.New("missing protocol scheme")`. -/
  | missingProtocolScheme
  /-- Go `errors.New("invalid URI for request")`. -/
  | invalidURIForRequest
  /-- Go `errors.New("first path segment in URL cannot contain colon")`. -/
  | firstPathSegmentColon
  /-- Go `errors.New("missing ']' in host")`. -/
  | missingBracketInHost
  /-- Go `fmt.Errorf("invalid port %q after host", colonPort)`. -/
  | invalidPort (colonPort : String)
  /-- Go `errors.New("net/url: invalid userinfo")`. -/
  | invalidUserinfo
  /-- Go `EscapeError(s)`. -/
  | EscapeError (s : String)
  /-- Go `InvalidHostError(s)`. -/
  | InvalidHostError (s : String)
  deriving DecidableEq, Repr

/-- Go `url.Error`: the operation, the URL text and the cause. -/
structure Error where
  Op : String
  URL : String
  Err : ParseError
  deriving DecidableEq, Repr

/-- Go `encoding`, the part of a URL an escape is meant for. -/
inductive encoding where
  | encodePath
  | encodePathSegment
  | encodeHost
  | encodeZone
  | encodeUserPassword
  | encodeQueryComponent
  | encodeFragment
  deriving DecidableEq, Repr

open encoding

/-- Whether a byte is an ASCII letter or digit. -/
def isAlnum (c : Char) : Bool :=
  ('a'.toNat ≤ c.toNat && c.toNat ≤ 'z'.toNat) ||
  ('A'.toNat ≤ c.toNat && c.toNat ≤ 'Z'.toNat) ||
  ('0'.toNat ≤ c.toNat && c.toNat ≤ '9'.toNat)

/-- Go `ishex`. -/
def ishex (c : Char) : Bool :=
  ('0'.toNat ≤ c.toNat && c.toNat ≤ '9'.toNat) ||
  ('a'.toNat ≤ c.toNat && c.toNat ≤ 'f'.toNat) ||
  ('A'.toNat ≤ c.toNat && c.toNat ≤ 'F'.toNat)

/-- Go `unhex`. -/
def unhex (c : Char) : Nat :=
  if '0'.toNat ≤ c.toNat ∧ c.toNat ≤ '9'.toNat then c.toNat - '0'.toNat
  else if 'a'.toNat ≤ c.toNat ∧ c.toNat ≤ 'f'.toNat then c.toNat - 'a'.toNat + 10
  else if 'A'.toNat ≤ c.toNat ∧ c.toNat ≤ 'F'.toNat then c.toNat - 'A'.toNat + 10
  else 0

/-- The bytes `shouldEscape` lets through unescaped in a host or zone:
`! $ & ' ( ) * + , ; = : [ ] < > "`. -/
def hostAllowed : List Char :=
  ['!', '$', '&', Char.ofNat 39, '(', ')', '*', '+', ',', ';', '=', ':', '[', ']', '<', '>',
   Char.ofNat 34]

/-- Go `shouldEscape(c, mode)`. -/
def shouldEscape (c : Char) (mode : encoding) : Bool :=
  if isAlnum c then false
  else if (mode = encodeHost ∨ mode = encodeZone) ∧ c ∈ hostAllowed then false
  else if c ∈ ['-', '_', '.', '~'] then false
  else if c ∈ ['$', '&', '+', ',', '/', ':', ';', '=', '?', '@'] then
    match mode with
    | encodePath => c == '?'
    | encodePathSegment => c == '/' || c == ';' || c == ',' || c == '?'
    | encodeUserPassword => c == '@' || c == '/' || c == '?' || c == ':'
    | encodeQueryComponent => true
    | encodeFragment => false
    -- no case of the inner switch is for a host or a zone: control reaches the final return
    | _ => true
  else if mode = encodeFragment ∧ c ∈ ['!', '(', ')', '*'] then false
  else true

/-- The text of at most three bytes reported by `unescape` for a malformed escape. -/
def escapeErrorText (s : List Char) : String := String.mk (s.take 3)

/-- First pass of Go `unescape`: the check that every `%` starts a well-formed
escape allowed in `mode`, and that a host holds no byte that needs escaping. -/
def unescapeCheck (mode : encoding) : List Char → Option ParseError
  | [] => none
  | '%' :: a :: b :: rest =>
    if !ishex a || !ishex b then some (.EscapeError (escapeErrorText ('%' :: a :: b :: rest)))
    else if mode = encodeHost ∧ unhex a < 8 ∧ ['%', a, b] ≠ ['%', '2', '5'] then
      some (.EscapeError (String.mk ['%', a, b]))
    else if mode = encodeZone ∧ ['%', a, b] ≠ ['%', '2', '5'] ∧
        unhex a * 16 + unhex b ≠ ' '.toNat ∧
        shouldEscape (Char.ofNat (unhex a * 16 + unhex b)) encodeHost then
      some (.EscapeError (String.mk ['%', a, b]))
    else unescapeCheck mode rest
  | c :: rest =>
    if c = '%' then some (.EscapeError (escapeErrorText (c :: rest)))
    else if c = '+' then unescapeCheck mode rest
    else if (mode = encodeHost ∨ mode = encodeZone) ∧ c.toNat < 128 ∧
        shouldEscape c encodeHost then
      some (.InvalidHostError (String.mk [c]))
    else unescapeCheck mode rest

/-- Second pass of Go `unescape`: the decoded bytes of a checked string. -/
def unescapeBuild (mode : encoding) : List Char → List Char
  | [] => []
  | '%' :: a :: b :: rest => Char.ofNat (unhex a * 16 + unhex b) :: unescapeBuild mode rest
  | c :: rest =>
    if c = '+' ∧ mode = encodeQueryComponent then ' ' :: unescapeBuild mode rest
    else c :: unescapeBuild mode rest

/-- Go `unescape(s, mode)`. (Go returns `s` itself when the first pass found no `%` and
no `+` to turn into a space; the second pass leaves such a string unchanged.) -/
def unescape (s : String) (mode : encoding) : Except ParseError String :=
  match unescapeCheck mode s.data with
  | some e => .error e
  | none => .ok (String.mk (unescapeBuild mode s.data))

/-- Go `upperhex`, the digit for a value below 16. -/
def upperhex (n : Nat) : Char :=
  if n < 10 then Char.ofNat ('0'.toNat + n) else Char.ofNat ('A'.toNat + (n - 10))

/-- List form of `escape`. -/
def escapeL (mode : encoding) : List Char → List Char
  | [] => []
  | c :: rest =>
    if shouldEscape c mode then
      if c = ' ' ∧ mode = encodeQueryComponent then '+' :: escapeL mode rest
      else '%' :: upperhex (c.toNat / 16 % 16) :: upperhex (c.toNat % 16) :: escapeL mode rest
    else c :: escapeL mode rest

/-- Go `escape(s, mode)`. -/
def escape (s : String) (mode : encoding) : String := String.mk (escapeL mode s.data)

/-- Go `stringContainsCTLByte`. -/
def stringContainsCTLByte (s : String) : Bool :=
  s.data.any (fun b => b.toNat < ' '.toNat || b.toNat == 127)

/-- Loop of Go `getScheme`, at index `i` with the bytes from `i` on still to read. -/
def getSchemeLoop (rawURL : String) : Nat → List Char → Except ParseError (String × String)
  | _, [] => .ok ("", rawURL)
  | i, c :: rest =>
    if ('a'.toNat ≤ c.toNat ∧ c.toNat ≤ 'z'.toNat) ∨ ('A'.toNat ≤ c.toNat ∧ c.toNat ≤ 'Z'.toNat) then
      getSchemeLoop rawURL (i + 1) rest
    else if ('0'.toNat ≤ c.toNat ∧ c.toNat ≤ '9'.toNat) ∨ c = '+' ∨ c = '-' ∨ c = '.' then
      if i = 0 then .ok ("", rawURL) else getSchemeLoop rawURL (i + 1) rest
    else if c = ':' then
      if i = 0 then .error .missingProtocolScheme
      else .ok (strings.sliceTo rawURL i, strings.sliceFrom rawURL (i + 1))
    else .ok ("", rawURL)

/-- Go `getScheme(rawURL)`: the scheme and the text after its colon. -/
def getScheme (rawURL : String) : Except ParseError (String × String) :=
  getSchemeLoop rawURL 0 rawURL.data

/-- Go `validOptionalPort(port)`. -/
def validOptionalPort (port : String) : Bool :=
  match port.data with
  | [] => true
  | c :: digits => c == ':' && digits.all (fun b => '0'.toNat ≤ b.toNat && b.toNat ≤ '9'.toNat)

/-- The punctuation Go `validUserinfo` accepts:
`- . _ : ~ ! $ & ' ( ) * + , ; = % @`. -/
def userinfoAllowed : List Char :=
  ['-', '.', '_', ':', '~', '!', '$', '&', Char.ofNat 39, '(', ')', '*', '+', ',', ';', '=',
   '%', '@']

/-- Go `validUserinfo(s)`. -/
def validUserinfo (s : String) : Bool :=
  s.data.all (fun r => isAlnum r || userinfoAllowed.contains r)

/-- Go `parseHost(host)`. -/
def parseHost (host : String) : Except ParseError String :=
  if strings.HasPrefix host "[" then
    match strings.LastIndex host ']' with
    | none => .error .missingBracketInHost
    | some i =>
      let colonPort := strings.sliceFrom host (i + 1)
      if !validOptionalPort colonPort then .error (.invalidPort colonPort)
      else
        match strings.Index (strings.sliceTo host i) "%25" with
        | some zone =>
          match unescape (strings.sliceTo host zone) encodeHost with
          | .error e => .error e
          | .ok host1 =>
            match unescape (strings.sliceFrom (strings.sliceTo host i) zone) encodeZone with
            | .error e => .error e
            | .ok host2 =>
              match unescape (strings.sliceFrom host i) encodeHost with
              | .error e => .error e
              | .ok host3 => .ok (host1 ++ host2 ++ host3)
        | none => unescape host encodeHost
  else
    match strings.LastIndex host ':' with
    | some i =>
      let colonPort := strings.sliceFrom host i
      if !validOptionalPort colonPort then .error (.invalidPort colonPort)
      else unescape host encodeHost
    | none => unescape host encodeHost

/-- Go `parseAuthority(authority)`: the user information and the host. -/
def parseAuthority (authority : String) : Except ParseError (Option Userinfo × String) :=
  match strings.LastIndex authority '@' with
  | none =>
    match parseHost authority with
    | .error e => .error e
    | .ok host => .ok (none, host)
  | some i =>
    match parseHost (strings.sliceFrom authority (i + 1)) with
    | .error e => .error e
    | .ok host =>
      let userinfo := strings.sliceTo authority i
      if !validUserinfo userinfo then .error .invalidUserinfo
      else if !strings.Contains userinfo ':' then
        match unescape userinfo encodeUserPassword with
        | .error e => .error e
        | .ok username => .ok (some ⟨username, "", false⟩, host)
      else
        let c := strings.Cut userinfo ':'
        match unescape c.1 encodeUserPassword with
        | .error e => .error e
        | .ok username =>
          match unescape c.2.1 encodeUserPassword with
          | .error e => .error e
          | .ok password => .ok (some ⟨username, password, true⟩, host)

/-- Go `(*URL).setPath(p)`: `Path` is the decoded path, `RawPath` the path as written
when that is not the default encoding of `Path`. -/
def setPath (u : URL) (p : String) : Except ParseError URL :=
  match unescape p encodePath with
  | .error e => .error e
  | .ok path =>
    if p = escape path encodePath then .ok { u with Path := path, RawPath := "" }
    else .ok { u with Path := path, RawPath := p }

/-- Go `parse(rawURL, viaRequest)`: the URL parser behind `Parse` and `ParseRequestURI`.
With `viaRequest` the text is taken as received in an HTTP request line: an absolute
URI or an absolute path, without a fragment. -/
def parse (rawURL : String) (viaRequest : Bool) : Except ParseError URL :=
  if stringContainsCTLByte rawURL then .error .invalidControlCharacter
  else if rawURL = "" ∧ viaRequest then .error .emptyURL
  else if rawURL = "*" then .ok { Path := "*" }
  else
    match getScheme rawURL with
    | .error e => .error e
    | .ok (scheme, rest0) =>
      let scheme := strings.ToLower scheme
      let forceQuery := strings.HasSuffix rest0 "?" && strings.Count rest0 '?' == 1
      let rest := if forceQuery then strings.sliceTo rest0 (rest0.data.length - 1)
        else (strings.Cut rest0 '?').1
      let rawQuery := if forceQuery then "" else (strings.Cut rest0 '?').2.1
      let u : URL := { Scheme := scheme, ForceQuery := forceQuery, RawQuery := rawQuery }
      if !strings.HasPrefix rest "/" ∧ scheme ≠ "" then
        -- a rootless path after a scheme is opaque
        .ok { u with Opaque := rest }
      else if !strings.HasPrefix rest "/" ∧ viaRequest then .error .invalidURIForRequest
      else if !strings.HasPrefix rest "/" ∧ strings.Contains (strings.Cut rest '/').1 ':' then
        .error .firstPathSegmentColon
      else if (scheme ≠ "" ∨ (!viaRequest ∧ !strings.HasPrefix rest "///")) ∧
          strings.HasPrefix rest "//" then
        let authority0 := strings.sliceFrom rest 2
        let cutAt := strings.Index authority0 "/"
        let authority := match cutAt with
          | some i => strings.sliceTo authority0 i
          | none => authority0
        let rest := match cutAt with
          | some i => strings.sliceFrom authority0 i
          | none => ""
        match parseAuthority authority with
        | .error e => .error e
        | .ok (user, host) => setPath { u with User := user, Host := host } rest
      else setPath u rest

/-- Go `validEncoded(s, mode)`: whether `s` is a valid encoded path or fragment. -/
def validEncoded (s : String) (mode : encoding) : Bool :=
  s.data.all (fun c =>
    ['!', '$', '&', Char.ofNat 39, '(', ')', '*', '+', ',', ';', '=', ':', '@'].contains c ||
    ['[', ']'].contains c || c == '%' || !shouldEscape c mode)

/-- Go `(*Userinfo).String()` for a non-nil receiver. -/
def Userinfo.String (u : Userinfo) : String :=
  if u.passwordSet then
    escape u.username encodeUserPassword ++ ":" ++ escape u.password encodeUserPassword
  else escape u.username encodeUserPassword

/-- Go `(*URL).EscapedPath()`. -/
def URL.EscapedPath (u : URL) : String :=
  if u.RawPath ≠ "" ∧ validEncoded u.RawPath encodePath ∧
      unescape u.RawPath encodePath = .ok u.Path then u.RawPath
  else if u.Path = "*" then "*"
  else escape u.Path encodePath

/-- Go `(*URL).EscapedFragment()`. -/
def URL.EscapedFragment (u : URL) : String :=
  if u.RawFragment ≠ "" ∧ validEncoded u.RawFragment encodeFragment ∧
      unescape u.RawFragment encodeFragment = .ok u.Fragment then u.RawFragment
  else escape u.Fragment encodeFragment

/-- Go `(*URL).String()`: the text of a URL, `scheme://userinfo@host/path?query#fragment`
or `scheme:opaque?query#fragment`. The successive values of the string builder are
`buf0` (scheme), `buf1` (authority), `buf2` and `buf3` (before the path). -/
def URL.String (u : URL) : String :=
  let buf0 := if u.Scheme ≠ "" then u.Scheme ++ ":" else ""
  let body :=
    if u.Opaque ≠ "" then buf0 ++ u.Opaque
    else
      let buf1 :=
        if u.Scheme ≠ "" ∨ u.Host ≠ "" ∨ u.User ≠ none then
          let b := if u.Host ≠ "" ∨ u.Path ≠ "" ∨ u.User ≠ none then buf0 ++ "//" else buf0
          let b := match u.User with
            | some ui => b ++ ui.String ++ "@"
            | none => b
          if u.Host ≠ "" then b ++ escape u.Host encodeHost else b
        else buf0
      let path := u.EscapedPath
      let buf2 :=
        if path ≠ "" ∧ path.data.head? ≠ some '/' ∧ u.Host ≠ "" then buf1 ++ "/" else buf1
      let buf3 :=
        if buf2.length = 0 ∧ (strings.Cut path ':').2.2 ∧
            !strings.Contains (strings.Cut path ':').1 '/' then buf2 ++ "./"
        else buf2
      buf3 ++ path
  let withQuery := if u.ForceQuery ∨ u.RawQuery ≠ "" then body ++ "?" ++ u.RawQuery else body
  if u.Fragment ≠ "" then withQuery ++ "#" ++ u.EscapedFragment else withQuery

/-- Go `url.ParseRequestURI(rawURL)`. -/
def ParseRequestURI (rawURL : String) : Except Error URL :=
  match parse rawURL true with
  | .error e => .error ⟨"parse", rawURL, e⟩
  | .ok u => .ok u

end url

/-! ## Library functions of `ory/x`, `fmt`, `os` and `cobra` used by the command -/

/-- Go `error` values that the command returns. -/
inductive GoError where
  /-- A `*url.Error`, as returned by `url.ParseRequestURI`. -/
  | url (e : url.Error)
  /-- Go `errors.Errorf(format, args...)`, kept as the format with its arguments: a string
  argument is `Sum.inl`, an error argument is `Sum.inr`. -/
  | errorf (format : String) (args : List (String ⊕ url.Error))
  /-- An error made outside this file (by `run` or by cobra), known by its message. -/
  | foreign (msg : String)
  deriving DecidableEq, Repr

namespace stringsx

/-- Go `stringsx.Coalesce(str...)`: the first non-empty string, `""` when there is none. -/
def Coalesce : List String → String
  | [] => ""
  | s :: rest => if s.length > 0 then s else Coalesce rest

end stringsx

namespace fmt

/-- The verb `%d` of Go `fmt.Sprintf` applied to an `int`: its decimal digits, after a
`-` when it is negative. -/
def d (n : Int) : String := toString n

end fmt

/-- A byte that is a decimal digit. -/
abbrev isDigitByte (c : Char) : Prop := 48 ≤ c.toNat ∧ c.toNat ≤ 57

namespace os

/-- The environment of the process: the value of each variable that is set. -/
abbrev Environ := String → Option String

/-- Go `os.Getenv(key)`: the value of the variable, `""` when it is not set. -/
def Getenv (env : Environ) (key : String) : String := (env key).getD ""

end os

namespace cobra

/-- The `*cobra.Command` as `RunE` sees it: the values of the six flags that
`NewProxyCommand` registers, after the command line was parsed. Each field is named
after the constant that holds the flag's name; `flagx.MustGetInt(cmd, PortFlag)` is
`cmd.PortFlag`, and so on for `flagx.MustGetBool` and `flagx.MustGetString`. -/
structure Command where
  OpenFlag : Bool
  CookieDomainFlag : String
  ProjectFlag : String
  PortFlag : Int
  WithoutJWTFlag : Bool
  DefaultRedirectURLFlag : String
  deriving DecidableEq, Repr

/-- Go `cobra.RangeArgs(min, max)`: the check of the number of positional arguments that
cobra runs before `RunE`; `none` when the arguments are accepted. -/
def RangeArgs (min max : Nat) (args : List String) : Option GoError :=
  if args.length < min ∨ args.length > max then
    some (.foreign ("accepts between " ++ toString min ++ " and " ++ toString max ++
      " arg(s), received " ++ toString args.length))
  else none

end cobra

/-! ## Package `proxy`: `cmd_proxy.go` -/

namespace proxy

/-- The struct `config` with the fields that `RunE` sets. -/
structure config where
  port : Int
  noJWT : Bool
  noOpen : Bool
  upstream : String
  cookieDomain : String
  publicURL : Option url.URL
  oryURL : Option url.URL
  pathPrefix : String
  defaultRedirectTo : Option url.URL
  deriving DecidableEq, Repr

/-- One invocation `run(cmd, conf, version, name)`. -/
structure RunCall where
  cmd : cobra.Command
  conf : config
  version : String
  name : String
  deriving DecidableEq, Repr

/-- The values `getEndpointURL` returns, and what it wrote to `cmd.ErrOrStderr()`. -/
structure EndpointResult where
  stderr : List String
  result : Except GoError url.URL
  deriving DecidableEq, Repr

/-- How a call of `RunE` ends: it returns an `error` (`none` is `nil`), or it panics. -/
inductive Return where
  | returned (err : Option GoError)
  | panicked
  deriving DecidableEq, Repr

/-- What a call of `RunE` does: its writes to `cmd.ErrOrStderr()`, its invocations of
`run` in order, and how it ends. -/
structure Outcome where
  stderr : List String
  runCalls : List RunCall
  ret : Return
  deriving DecidableEq, Repr

/-- The command's `Args` field, `cobra.RangeArgs(1, 2)`. -/
def Args (args : List String) : Option GoError := cobra.RangeArgs 1 2 args

/-- The values with which `NewProxyCommand` registers the flags, `portFromEnv` being the
result of `portFromEnv()`. -/
def defaultFlags (portFromEnv : Int) : cobra.Command :=
  { OpenFlag := false
    CookieDomainFlag := ""
    ProjectFlag := ""
    PortFlag := portFromEnv
    WithoutJWTFlag := false
    DefaultRedirectURLFlag := "" }

/-- Go `getEndpointURL(cmd)`, in the environment `env`. -/
def getEndpointURL (env : os.Environ) (cmd : cobra.Command) : EndpointResult :=
  let fromEnv := stringsx.Coalesce [os.Getenv env "ORY_KRATOS_URL", os.Getenv env "ORY_SDK_URL"]
  let stderr : List String :=
    if fromEnv.length > 0 then
      ["Use of ORY_SDK_URL / ORY_KRATOS_URL is deprecated. Please use the --project flag instead.\n"]
    else []
  let target : String :=
    if fromEnv.length > 0 then fromEnv
    else if cmd.ProjectFlag.length > 0 then "https://" ++ cmd.ProjectFlag ++ ".projects.oryapis.com/"
    else ""
  if target.length = 0 then
    ⟨stderr, .error (.errorf "Please provide your project slug using the --project flag." [])⟩
  else
    match url.ParseRequestURI target with
    | .error err =>
      ⟨stderr, .error (.errorf "Unable to parse \"%s\" as an URL: %s" [.inl target, .inr err])⟩
    | .ok upstream => ⟨stderr, .ok upstream⟩

/-- The local variable `selfURLString` of `RunE`: the second argument when there are two
(`args[1]`, so the default of `getD` is never taken), else the address of `localhost`
on the port of the `--port` flag, `fmt.Sprintf("http://localhost:%d", port)`. -/
def selfURLString (cmd : cobra.Command) (args : List String) : String :=
  let port := cmd.PortFlag
  if args.length = 2 then args.getD 1 "" else "http://localhost:" ++ fmt.d port

/-- The closure `RunE` of `NewProxyCommand(self, version)`, called with `cmd` and `args`
in the environment `env`; `run` is the function `run` of the package, of which only the
returned error matters here. -/
def RunE (env : os.Environ) (version : String)
    (run : cobra.Command → config → String → String → Option GoError)
    (cmd : cobra.Command) (args : List String) : Outcome :=
  match url.ParseRequestURI (selfURLString cmd args) with
  | .error err => ⟨[], [], .returned (some (.url err))⟩
  | .ok selfURL =>
    match url.ParseRequestURI
      (stringsx.Coalesce [cmd.DefaultRedirectURLFlag, selfURLString cmd args]) with
    | .error err => ⟨[], [], .returned (some (.url err))⟩
    | .ok redirectURL =>
      let ep := getEndpointURL env cmd
      match ep.result with
      | .error err => ⟨ep.stderr, [], .returned (some err)⟩
      | .ok oryURL =>
        match args[0]? with
        -- index out of range in `args[0]`
        | none => ⟨ep.stderr, [], .panicked⟩
        | some upstream =>
          let conf : config :=
            { port := cmd.PortFlag
              noJWT := cmd.WithoutJWTFlag
              noOpen := !cmd.OpenFlag
              upstream := upstream
              cookieDomain := cmd.CookieDomainFlag
              publicURL := some selfURL
              oryURL := some oryURL
              pathPrefix := "/.ory"
              defaultRedirectTo := some redirectURL }
          ⟨ep.stderr, [⟨cmd, conf, version, "cloud"⟩], .returned (run cmd conf version "cloud")⟩

/-- The config literal of `RunE`, as a function of the values it is built from. -/
def confOf (cmd : cobra.Command) (upstream : String) (selfURL oryURL redirectURL : url.URL) :
    config :=
  { port := cmd.PortFlag
    noJWT := cmd.WithoutJWTFlag
    noOpen := !cmd.OpenFlag
    upstream := upstream
    cookieDomain := cmd.CookieDomainFlag
    publicURL := some selfURL
    oryURL := some oryURL
    pathPrefix := "/.ory"
    defaultRedirectTo := some redirectURL }

/-- The result of `getEndpointURL` once its target is known and not empty: the parse
of the target, a failure being wrapped with the target. -/
def parseTarget (target : String) : Except GoError url.URL :=
  match url.ParseRequestURI target with
  | .error err => .error (.errorf "Unable to parse \"%s\" as an URL: %s" [.inl target, .inr err])
  | .ok upstream => .ok upstream

/-! ### The management endpoint of the proxy that `run` starts

`run` and the proxy it starts are in `proxy.go`, which is not among the source files;
what follows is taken from the specification. -/

end proxy

/-! ## Example inputs -/

/-- An environment in which no variable is set. -/
def emptyEnviron : os.Environ := fun _ => none

/-- The flags of `proxy --project my-slug` with the default port 4000. -/
def slugFlags : cobra.Command := { proxy.defaultFlags 4000 with ProjectFlag := "my-slug" }

/-- A `run` that returns `nil`. -/
def runNil : cobra.Command → proxy.config → String → String → Option GoError :=
  fun _ _ _ _ => none

/-- An environment in which only `ORY_SDK_URL` is set, to `value`. -/
def sdkEnviron (value : String) : os.Environ :=
  fun key => if key = "ORY_SDK_URL" then some value else none

/-- The result of `url.ParseRequestURI("https://my-slug.projects.oryapis.com/")`. -/
def slugURL : url.URL :=
  { Scheme := "https", Host := "my-slug.projects.oryapis.com", Path := "/" }

/-! ## Facts about `RunE` shared by the theorems below -/

namespace proxy

theorem RunE_of_ok (env : os.Environ) (version : String)
    (run : cobra.Command → config → String → String → Option GoError)
    (cmd : cobra.Command) (args : List String) (u r o : url.URL) (a : String)
    (hu : url.ParseRequestURI (selfURLString cmd args) = .ok u)
    (hr : url.ParseRequestURI
      (stringsx.Coalesce [cmd.DefaultRedirectURLFlag, selfURLString cmd args]) = .ok r)
    (ho : (getEndpointURL env cmd).result = .ok o)
    (ha : args[0]? = some a) :
    RunE env version run cmd args =
      ⟨(getEndpointURL env cmd).stderr, [⟨cmd, confOf cmd a u o r, version, "cloud"⟩],
        .returned (run cmd (confOf cmd a u o r) version "cloud")⟩ := by
  simp only [RunE, hu, hr, ho, ha, confOf]

theorem RunE_of_self_error (env : os.Environ) (version : String)
    (run : cobra.Command → config → String → String → Option GoError)
    (cmd : cobra.Command) (args : List String) (e : url.Error)
    (hu : url.ParseRequestURI (selfURLString cmd args) = .error e) :
    RunE env version run cmd args = ⟨[], [], .returned (some (.url e))⟩ := by
  simp only [RunE, hu]

theorem RunE_of_redirect_error (env : os.Environ) (version : String)
    (run : cobra.Command → config → String → String → Option GoError)
    (cmd : cobra.Command) (args : List String) (u : url.URL) (e : url.Error)
    (hu : url.ParseRequestURI (selfURLString cmd args) = .ok u)
    (hr : url.ParseRequestURI
      (stringsx.Coalesce [cmd.DefaultRedirectURLFlag, selfURLString cmd args]) = .error e) :
    RunE env version run cmd args = ⟨[], [], .returned (some (.url e))⟩ := by
  simp only [RunE, hu, hr]

theorem RunE_of_endpoint_error (env : os.Environ) (version : String)
    (run : cobra.Command → config → String → String → Option GoError)
    (cmd : cobra.Command) (args : List String) (u r : url.URL) (e : GoError)
    (hu : url.ParseRequestURI (selfURLString cmd args) = .ok u)
    (hr : url.ParseRequestURI
      (stringsx.Coalesce [cmd.DefaultRedirectURLFlag, selfURLString cmd args]) = .ok r)
    (ho : (getEndpointURL env cmd).result = .error e) :
    RunE env version run cmd args =
      ⟨(getEndpointURL env cmd).stderr, [], .returned (some e)⟩ := by
  simp only [RunE, hu, hr, ho]

/-- Every invocation of `run` by `RunE` is the only one, and comes after the three
steps succeeded, with the config built from their results. -/
theorem RunE_call_inv (env : os.Environ) (version : String)
    (run : cobra.Command → config → String → String → Option GoError)
    (cmd : cobra.Command) (args : List String) (call : RunCall)
    (h : call ∈ (RunE env version run cmd args).runCalls) :
    ∃ u r o a,
      url.ParseRequestURI (selfURLString cmd args) = .ok u ∧
      url.ParseRequestURI
        (stringsx.Coalesce [cmd.DefaultRedirectURLFlag, selfURLString cmd args]) = .ok r ∧
      (getEndpointURL env cmd).result = .ok o ∧
      args[0]? = some a ∧
      call = ⟨cmd, confOf cmd a u o r, version, "cloud"⟩ ∧
      (RunE env version run cmd args).runCalls = [call] := by
  cases hu : url.ParseRequestURI (selfURLString cmd args) with
  | error e => rw [RunE_of_self_error env version run cmd args e hu] at h; simp at h
  | ok u =>
    cases hr : url.ParseRequestURI
        (stringsx.Coalesce [cmd.DefaultRedirectURLFlag, selfURLString cmd args]) with
    | error e => rw [RunE_of_redirect_error env version run cmd args u e hu hr] at h; simp at h
    | ok r =>
      cases ho : (getEndpointURL env cmd).result with
      | error e =>
        rw [RunE_of_endpoint_error env version run cmd args u r e hu hr ho] at h; simp at h
      | ok o =>
        cases ha : args[0]? with
        | none => simp [RunE, hu, hr, ho, ha] at h
        | some a =>
          rw [RunE_of_ok env version run cmd args u r o a hu hr ho ha] at h ⊢
          simp only [List.mem_singleton] at h
          exact ⟨u, r, o, a, rfl, rfl, rfl, rfl, h, by rw [h]⟩

end proxy

/-- When cobra accepts the arguments there are one or two of them, so `args[0]` exists. -/
theorem proxy.Args_eq_none_iff (args : List String) :
    proxy.Args args = none ↔ 1 ≤ args.length ∧ args.length ≤ 2 := by
  unfold proxy.Args cobra.RangeArgs
  split
  · simp only [reduceCtorEq, false_iff]; omega
  · simp only [true_iff]; omega

theorem proxy.head_of_Args (args : List String) (h : proxy.Args args = none) :
    ∃ a, args[0]? = some a := by
  have h1 := ((proxy.Args_eq_none_iff args).1 h).1
  cases args with
  | nil => simp at h1
  | cons a rest => exact ⟨a, by simp⟩

/-! ## Facts about strings and `stringsx.Coalesce` -/

theorem String.length_pos_iff_ne_empty (s : String) : s.length > 0 ↔ s ≠ "" := by
  rcases s with ⟨l⟩
  cases l with
  | nil => simp [String.length]
  | cons c l =>
    simp only [String.length, List.length_cons, gt_iff_lt, Nat.zero_lt_succ, ne_eq, true_iff]
    intro h
    have := congrArg String.data h
    simp at this

theorem String.length_eq_zero_iff_eq_empty (s : String) : s.length = 0 ↔ s = "" := by
  have := String.length_pos_iff_ne_empty s
  constructor
  · intro h
    by_contra hne
    have := this.2 hne
    omega
  · intro h
    subst h
    rfl

theorem slugTarget_ne_empty (slug : String) :
    "https://" ++ slug ++ ".projects.oryapis.com/" ≠ "" := by
  intro h
  have h2 := congrArg String.length h
  simp only [String.length_append] at h2
  have h3 : "https://".length = 8 := rfl
  have h4 : "".length = 0 := rfl
  omega

theorem stringsx.Coalesce_of_ne_empty (a b : String) (h : a ≠ "") :
    stringsx.Coalesce [a, b] = a := by
  have := (String.length_pos_iff_ne_empty a).2 h
  simp [stringsx.Coalesce, this]

theorem stringsx.Coalesce_empty_left (b : String) : stringsx.Coalesce ["", b] = b := by
  by_cases h : b.length > 0
  · simp [stringsx.Coalesce, h]
  · have hb : b = "" := by
      by_contra hne
      exact h ((String.length_pos_iff_ne_empty b).2 hne)
    subst hb
    simp [stringsx.Coalesce]

theorem os.Getenv_eq_empty_iff (env : os.Environ) (key : String) :
    os.Getenv env key = "" ↔ env key = none ∨ env key = some "" := by
  unfold os.Getenv
  cases env key <;> simp

theorem proxy.getEndpointURL_of_fromEnv (env : os.Environ) (cmd : cobra.Command)
    (h : stringsx.Coalesce [os.Getenv env "ORY_KRATOS_URL", os.Getenv env "ORY_SDK_URL"] ≠ "") :
    (proxy.getEndpointURL env cmd).result = proxy.parseTarget
      (stringsx.Coalesce [os.Getenv env "ORY_KRATOS_URL", os.Getenv env "ORY_SDK_URL"]) := by
  have hpos := (String.length_pos_iff_ne_empty _).2 h
  have hne : (stringsx.Coalesce
      [os.Getenv env "ORY_KRATOS_URL", os.Getenv env "ORY_SDK_URL"]).length ≠ 0 := by omega
  unfold proxy.getEndpointURL proxy.parseTarget
  simp only [hpos, hne, if_true, if_false]
  split <;> rfl

theorem proxy.getEndpointURL_of_slug (env : os.Environ) (cmd : cobra.Command)
    (h : stringsx.Coalesce [os.Getenv env "ORY_KRATOS_URL", os.Getenv env "ORY_SDK_URL"] = "")
    (hp : cmd.ProjectFlag ≠ "") :
    (proxy.getEndpointURL env cmd).result =
      proxy.parseTarget ("https://" ++ cmd.ProjectFlag ++ ".projects.oryapis.com/") := by
  have hpos := (String.length_pos_iff_ne_empty _).2 hp
  have hne : ("https://" ++ cmd.ProjectFlag ++ ".projects.oryapis.com/").length ≠ 0 := by
    intro h0
    exact slugTarget_ne_empty _ ((String.length_eq_zero_iff_eq_empty _).1 h0)
  have h0 : ¬ ("".length > 0) := by decide
  unfold proxy.getEndpointURL proxy.parseTarget
  simp only [h, hpos, hne, h0, if_true, if_false]
  split <;> rfl

theorem proxy.getEndpointURL_of_nothing (env : os.Environ) (cmd : cobra.Command)
    (h : stringsx.Coalesce [os.Getenv env "ORY_KRATOS_URL", os.Getenv env "ORY_SDK_URL"] = "")
    (hp : cmd.ProjectFlag = "") :
    (proxy.getEndpointURL env cmd).result =
      .error (.errorf "Please provide your project slug using the --project flag." []) := by
  unfold proxy.getEndpointURL
  simp [h, hp]

theorem proxy.parseTarget_ne_slug_error (target : String) :
    proxy.parseTarget target ≠
      .error (.errorf "Please provide your project slug using the --project flag." []) := by
  unfold proxy.parseTarget
  split <;> simp

theorem stringsx.Coalesce_two (a b : String) :
    stringsx.Coalesce [a, b] = if a ≠ "" then a else if b ≠ "" then b else "" := by
  by_cases ha : a = ""
  · subst ha
    rw [stringsx.Coalesce_empty_left]
    by_cases hb : b = "" <;> simp [hb]
  · rw [stringsx.Coalesce_of_ne_empty a b ha]
    simp [ha]

/-! ## The default public URL parses, for every port that is not negative -/

theorem Nat.digitChar_isDigitByte (m : Nat) (h : m < 10) : isDigitByte (Nat.digitChar m) := by
  unfold isDigitByte
  interval_cases m <;> decide

theorem Nat.toDigitsCore_isDigitByte (fuel : Nat) :
    ∀ (n : Nat) (acc : List Char), (∀ c ∈ acc, isDigitByte c) →
      ∀ c ∈ Nat.toDigitsCore 10 fuel n acc, isDigitByte c := by
  induction fuel with
  | zero => intro n acc hacc c hc; simpa [Nat.toDigitsCore] using hacc c hc
  | succ fuel ih =>
    intro n acc hacc c hc
    have hd : ∀ c ∈ Nat.digitChar (n % 10) :: acc, isDigitByte c := by
      intro c hc
      rcases List.mem_cons.1 hc with h | h
      · rw [h]; exact Nat.digitChar_isDigitByte _ (Nat.mod_lt _ (by decide))
      · exact hacc c h
    simp only [Nat.toDigitsCore] at hc
    split at hc
    · exact hd c hc
    · exact ih _ _ hd c hc

theorem Nat.toDigits_isDigitByte (n : Nat) : ∀ c ∈ Nat.toDigits 10 n, isDigitByte c :=
  Nat.toDigitsCore_isDigitByte _ n [] (by simp)

theorem isDigitByte.ne {c d : Char} (h : isDigitByte c) (hd : ¬ isDigitByte d) : c ≠ d := by
  intro hcd; rw [hcd] at h; exact hd h

theorem strings.cutL_of_not_mem (l : List Char) (d : Char) (h : d ∉ l) :
    strings.cutL l d = (l, [], false) := by
  induction l with
  | nil => rfl
  | cons c l ih =>
    have hc : c ≠ d := fun e => h (by simp [e])
    have hl : d ∉ l := fun e => h (by simp [e])
    simp [strings.cutL, hc, ih hl]

theorem strings.lastIndexL_of_not_mem (l : List Char) (d : Char) (h : d ∉ l) :
    strings.lastIndexL l d = none := by
  induction l with
  | nil => rfl
  | cons c l ih =>
    have hc : c ≠ d := fun e => h (by simp [e])
    have hl : d ∉ l := fun e => h (by simp [e])
    simp [strings.lastIndexL, hc, ih hl]

theorem strings.indexL_single_of_not_mem (l : List Char) (d : Char) (h : d ∉ l) :
    strings.indexL l [d] = none := by
  induction l with
  | nil => rfl
  | cons c l ih =>
    have hc : c ≠ d := fun e => h (by simp [e])
    have hl : d ∉ l := fun e => h (by simp [e])
    simp [strings.indexL, strings.hasPrefixL, hc, ih hl]

theorem strings.hasSuffix_single_of_not_mem (l : List Char) (d : Char) (h : d ∉ l) :
    strings.hasPrefixL l.reverse [d] = false := by
  cases hr : l.reverse with
  | nil => rfl
  | cons c r =>
    have hc : c ∈ l := by
      have : c ∈ l.reverse := by rw [hr]; simp
      simpa using this
    have : c ≠ d := fun e => h (e ▸ hc)
    simp [strings.hasPrefixL, this]

theorem url.unescapeCheck_digits (mode : url.encoding) (l : List Char)
    (h : ∀ c ∈ l, isDigitByte c) : url.unescapeCheck mode l = none := by
  induction l with
  | nil => rfl
  | cons c l ih =>
    have hc : isDigitByte c := h c (by simp)
    have hl := ih (fun c hc => h c (by simp [hc]))
    have h1 : c ≠ '%' := hc.ne (by decide)
    have h2 : c ≠ '+' := hc.ne (by decide)
    have h3 : url.shouldEscape c url.encoding.encodeHost = false := by
      have : url.isAlnum c = true := by
        unfold isDigitByte at hc
        simp [url.isAlnum]
        right
        exact hc
      simp [url.shouldEscape, this]
    unfold url.unescapeCheck
    split
    · rfl
    · next heq => exact absurd (List.cons.inj heq).1 h1
    · next heq =>
      obtain ⟨rfl, rfl⟩ := List.cons.inj heq
      simp [h1, h2, h3, hl]

theorem url.unescapeBuild_digits (mode : url.encoding) (l : List Char)
    (h : ∀ c ∈ l, isDigitByte c) : url.unescapeBuild mode l = l := by
  induction l with
  | nil => rfl
  | cons c l ih =>
    have hc : isDigitByte c := h c (by simp)
    have hl := ih (fun c hc => h c (by simp [hc]))
    have h1 : c ≠ '%' := hc.ne (by decide)
    have h2 : c ≠ '+' := hc.ne (by decide)
    unfold url.unescapeBuild
    split
    · next heq => cases heq
    · next heq => exact absurd (List.cons.inj heq).1 h1
    · next heq =>
      obtain ⟨rfl, rfl⟩ := List.cons.inj heq
      simp [h2, hl]

/-- The parser accepts `http://localhost:<digits>` and reads the host `localhost:<digits>`. -/
theorem url.parse_localhost_digits (ds : List Char) (h : ∀ c ∈ ds, isDigitByte c) :
    url.parse ("http://localhost:" ++ String.mk ds) true =
      .ok { Scheme := "http", Host := "localhost:" ++ String.mk ds } := by
  have hq : '?' ∉ ds := fun hm => absurd (h _ hm) (by decide)
  have hs : '/' ∉ ds := fun hm => absurd (h _ hm) (by decide)
  have ha : '@' ∉ ds := fun hm => absurd (h _ hm) (by decide)
  have hc : ':' ∉ ds := fun hm => absurd (h _ hm) (by decide)
  have hraw : "http://localhost:" ++ String.mk ds =
      String.mk ('h' :: 't' :: 't' :: 'p' :: ':' :: '/' :: '/' :: 'l' :: 'o' :: 'c' :: 'a' ::
        'l' :: 'h' :: 'o' :: 's' :: 't' :: ':' :: ds) := rfl
  have hhost : "localhost:" ++ String.mk ds =
      String.mk ('l' :: 'o' :: 'c' :: 'a' :: 'l' :: 'h' :: 'o' :: 's' :: 't' :: ':' :: ds) := rfl
  rw [hraw, hhost]
  have hctl : ds.any (fun b => b.toNat < ' '.toNat || b.toNat == 127) = false := by
    rw [List.any_eq_false]
    intro c hc
    have := h c hc
    have e : ' '.toNat = 32 := rfl
    simp [e]
    omega
  have h1 : url.stringContainsCTLByte (String.mk ('h' :: 't' :: 't' :: 'p' :: ':' :: '/' :: '/' ::
      'l' :: 'o' :: 'c' :: 'a' :: 'l' :: 'h' :: 'o' :: 's' :: 't' :: ':' :: ds)) = false := by
    simp only [url.stringContainsCTLByte, List.any_cons, hctl]
    decide
  have h2 : url.getScheme (String.mk ('h' :: 't' :: 't' :: 'p' :: ':' :: '/' :: '/' ::
      'l' :: 'o' :: 'c' :: 'a' :: 'l' :: 'h' :: 'o' :: 's' :: 't' :: ':' :: ds)) =
      .ok ("http", String.mk ('/' :: '/' ::
      'l' :: 'o' :: 'c' :: 'a' :: 'l' :: 'h' :: 'o' :: 's' :: 't' :: ':' :: ds)) := by
    simp [url.getScheme, url.getSchemeLoop, strings.sliceTo, strings.sliceFrom]
  have hne1 : String.mk ('h' :: 't' :: 't' :: 'p' :: ':' :: '/' :: '/' ::
      'l' :: 'o' :: 'c' :: 'a' :: 'l' :: 'h' :: 'o' :: 's' :: 't' :: ':' :: ds) ≠ "" := by
    intro e; have := congrArg String.length e; simp [String.length] at this
  have hne2 : String.mk ('h' :: 't' :: 't' :: 'p' :: ':' :: '/' :: '/' ::
      'l' :: 'o' :: 'c' :: 'a' :: 'l' :: 'h' :: 'o' :: 's' :: 't' :: ':' :: ds) ≠ "*" := by
    intro e; have := congrArg String.length e; simp [String.length] at this
  have hlow : strings.ToLower "http" = "http" := by decide
  have hqm : '?' ∉ '/' :: '/' :: 'l' :: 'o' :: 'c' :: 'a' :: 'l' :: 'h' :: 'o' :: 's' :: 't' ::
      ':' :: ds := by simp [hq]
  have hsuf : strings.HasSuffix (String.mk ('/' :: '/' :: 'l' :: 'o' :: 'c' :: 'a' :: 'l' ::
      'h' :: 'o' :: 's' :: 't' :: ':' :: ds)) "?" = false :=
    strings.hasSuffix_single_of_not_mem _ _ hqm
  have hcut : strings.Cut (String.mk ('/' :: '/' :: 'l' :: 'o' :: 'c' :: 'a' :: 'l' ::
      'h' :: 'o' :: 's' :: 't' :: ':' :: ds)) '?' =
      (String.mk ('/' :: '/' :: 'l' :: 'o' :: 'c' :: 'a' :: 'l' ::
      'h' :: 'o' :: 's' :: 't' :: ':' :: ds), "", false) := by
    unfold strings.Cut
    rw [strings.cutL_of_not_mem _ _ hqm]
  have hpre1 : strings.HasPrefix (String.mk ('/' :: '/' :: 'l' :: 'o' :: 'c' :: 'a' :: 'l' ::
      'h' :: 'o' :: 's' :: 't' :: ':' :: ds)) "/" = true := rfl
  have hpre2 : strings.HasPrefix (String.mk ('/' :: '/' :: 'l' :: 'o' :: 'c' :: 'a' :: 'l' ::
      'h' :: 'o' :: 's' :: 't' :: ':' :: ds)) "//" = true := rfl
  have hsl : strings.sliceFrom (String.mk ('/' :: '/' :: 'l' :: 'o' :: 'c' :: 'a' :: 'l' ::
      'h' :: 'o' :: 's' :: 't' :: ':' :: ds)) 2 =
      String.mk ('l' :: 'o' :: 'c' :: 'a' :: 'l' :: 'h' :: 'o' :: 's' :: 't' :: ':' :: ds) := rfl
  have hsm : '/' ∉ 'l' :: 'o' :: 'c' :: 'a' :: 'l' :: 'h' :: 'o' :: 's' :: 't' ::
      ':' :: ds := by simp [hs]
  have ham : '@' ∉ 'l' :: 'o' :: 'c' :: 'a' :: 'l' :: 'h' :: 'o' :: 's' :: 't' ::
      ':' :: ds := by simp [ha]
  have hidx : strings.Index (String.mk ('l' :: 'o' :: 'c' :: 'a' :: 'l' :: 'h' :: 'o' :: 's' ::
      't' :: ':' :: ds)) "/" = none := strings.indexL_single_of_not_mem _ _ hsm
  have hhostp : url.parseHost (String.mk ('l' :: 'o' :: 'c' :: 'a' :: 'l' :: 'h' :: 'o' :: 's' ::
      't' :: ':' :: ds)) = .ok (String.mk ('l' :: 'o' :: 'c' :: 'a' :: 'l' :: 'h' :: 'o' :: 's' ::
      't' :: ':' :: ds)) := by
    have hli : strings.LastIndex (String.mk ('l' :: 'o' :: 'c' :: 'a' :: 'l' :: 'h' :: 'o' ::
        's' :: 't' :: ':' :: ds)) ':' = some 9 := by
      simp [strings.LastIndex, strings.lastIndexL, strings.lastIndexL_of_not_mem _ _ hc]
    have hport : url.validOptionalPort (strings.sliceFrom (String.mk ('l' :: 'o' :: 'c' :: 'a' ::
        'l' :: 'h' :: 'o' :: 's' :: 't' :: ':' :: ds)) 9) = true := by
      simp only [strings.sliceFrom, url.validOptionalPort, List.drop]
      simp
      intro c hcm
      exact h c hcm
    have hun : url.unescape (String.mk ('l' :: 'o' :: 'c' :: 'a' ::
        'l' :: 'h' :: 'o' :: 's' :: 't' :: ':' :: ds)) url.encoding.encodeHost =
        .ok (String.mk ('l' :: 'o' :: 'c' :: 'a' :: 'l' :: 'h' :: 'o' :: 's' :: 't' :: ':' ::
          ds)) := by
      simp [url.unescape, url.unescapeCheck, url.unescapeBuild, url.unescapeCheck_digits _ _ h,
        url.unescapeBuild_digits _ _ h, url.shouldEscape, url.isAlnum, url.hostAllowed]
    unfold url.parseHost
    have hb : strings.HasPrefix (String.mk ('l' :: 'o' :: 'c' :: 'a' ::
        'l' :: 'h' :: 'o' :: 's' :: 't' :: ':' :: ds)) "[" = false := rfl
    simp [hb, hli, hport, hun]
  have hauth : url.parseAuthority (String.mk ('l' :: 'o' :: 'c' :: 'a' :: 'l' :: 'h' :: 'o' ::
      's' :: 't' :: ':' :: ds)) = .ok (none, String.mk ('l' :: 'o' :: 'c' :: 'a' :: 'l' :: 'h' ::
      'o' :: 's' :: 't' :: ':' :: ds)) := by
    unfold url.parseAuthority
    have : strings.LastIndex (String.mk ('l' :: 'o' :: 'c' :: 'a' :: 'l' :: 'h' :: 'o' ::
      's' :: 't' :: ':' :: ds)) '@' = none := strings.lastIndexL_of_not_mem _ _ ham
    rw [this]
    simp only [hhostp]
  unfold url.parse
  simp [h1, h2, hne1, hne2, hlow, hsuf, hcut, hpre1, hpre2, hsl, hidx, hauth]
  rfl

/-- For a port that is not negative, `http://localhost:<port>` parses, to the scheme
`http` and the host `localhost:<port>`. -/
theorem url.ParseRequestURI_localhost_port (port : Int) (h : 0 ≤ port) :
    url.ParseRequestURI ("http://localhost:" ++ fmt.d port) =
      .ok { Scheme := "http", Host := "localhost:" ++ fmt.d port } := by
  obtain ⟨n, rfl⟩ := Int.eq_ofNat_of_zero_le h
  have hd : fmt.d (n : Int) = String.mk (Nat.toDigits 10 n) := rfl
  rw [hd]
  unfold url.ParseRequestURI
  rw [url.parse_localhost_digits _ (Nat.toDigits_isDigitByte n)]

namespace proxy

/-- C1: when the command is invoked with one positional argument, every config handed to
`run` has `port` equal to the value `p` of the `--port` flag and `publicURL` equal to the
parse of `http://localhost:<p>` (a non-nil URL); `run` is reached with that config as soon
as the three steps succeed; for every `p` that is not negative that string parses, to the
scheme `http` and the host `localhost:<p>`; and for `p = 4000` the public URL is
`http://localhost:4000`. -/
theorem default_public_url_is_localhost_on_port (env : os.Environ) (version : String)
    (run : cobra.Command → config → String → String → Option GoError)
    (cmd : cobra.Command) (appURL : String) :
    (∀ call ∈ (RunE env version run cmd [appURL]).runCalls,
      call.conf.port = cmd.PortFlag ∧
      call.conf.publicURL ≠ none ∧
      call.conf.publicURL =
        (url.ParseRequestURI ("http://localhost:" ++ fmt.d cmd.PortFlag)).toOption) ∧
    (∀ u r o,
      url.ParseRequestURI ("http://localhost:" ++ fmt.d cmd.PortFlag) = .ok u →
      url.ParseRequestURI (stringsx.Coalesce
        [cmd.DefaultRedirectURLFlag, "http://localhost:" ++ fmt.d cmd.PortFlag]) = .ok r →
      (getEndpointURL env cmd).result = .ok o →
      ∃ conf, (RunE env version run cmd [appURL]).runCalls = [⟨cmd, conf, version, "cloud"⟩] ∧
        conf.port = cmd.PortFlag ∧ conf.publicURL = some u) ∧
    (0 ≤ cmd.PortFlag →
      url.ParseRequestURI ("http://localhost:" ++ fmt.d cmd.PortFlag) =
        .ok { Scheme := "http", Host := "localhost:" ++ fmt.d cmd.PortFlag } ∧
      ∀ call ∈ (RunE env version run cmd [appURL]).runCalls,
        call.conf.publicURL =
          some { Scheme := "http", Host := "localhost:" ++ fmt.d cmd.PortFlag }) ∧
    (cmd.PortFlag = 4000 →
      "http://localhost:" ++ fmt.d cmd.PortFlag = "http://localhost:4000" ∧
      ∀ call ∈ (RunE env version run cmd [appURL]).runCalls,
        call.conf.publicURL = some { Scheme := "http", Host := "localhost:4000" }) := by
  have hself : selfURLString cmd [appURL] = "http://localhost:" ++ fmt.d cmd.PortFlag := by
    simp [selfURLString]
  have hcalls : ∀ call ∈ (RunE env version run cmd [appURL]).runCalls,
      call.conf.port = cmd.PortFlag ∧ call.conf.publicURL ≠ none ∧
      call.conf.publicURL =
        (url.ParseRequestURI ("http://localhost:" ++ fmt.d cmd.PortFlag)).toOption := by
    intro call hcall
    obtain ⟨u, r, o, a, hu, -, -, -, hc, -⟩ := RunE_call_inv env version run cmd [appURL] call hcall
    rw [hself] at hu
    subst hc
    simp [confOf, hu, Except.toOption]
  refine ⟨hcalls, ?_, ?_, ?_⟩
  · intro u r o hu hr ho
    refine ⟨confOf cmd appURL u o r, ?_, rfl, rfl⟩
    rw [RunE_of_ok env version run cmd [appURL] u r o appURL (by rw [hself]; exact hu)
      (by rw [hself]; exact hr) ho rfl]
  · intro hp
    have hparse := url.ParseRequestURI_localhost_port cmd.PortFlag hp
    refine ⟨hparse, ?_⟩
    intro call hcall
    rw [(hcalls call hcall).2.2, hparse]
    rfl
  · intro hp
    have hs : "http://localhost:" ++ fmt.d cmd.PortFlag = "http://localhost:4000" := by
      rw [hp]; decide
    refine ⟨hs, ?_⟩
    intro call hcall
    have h := (hcalls call hcall).2.2
    rw [hs] at h
    rw [h]
    decide

/-- C1, at the flags of `proxy --project my-slug http://localhost:3000`. -/
theorem default_public_url_is_localhost_on_port_witness :
    ∃ conf, (RunE emptyEnviron "v1" runNil slugFlags ["http://localhost:3000"]).runCalls =
        [⟨slugFlags, conf, "v1", "cloud"⟩] ∧
      conf.port = slugFlags.PortFlag ∧
      conf.publicURL = some { Scheme := "http", Host := "localhost:4000" } :=
  (default_public_url_is_localhost_on_port emptyEnviron "v1" runNil slugFlags
    "http://localhost:3000").2.1 { Scheme := "http", Host := "localhost:4000" }
    { Scheme := "http", Host := "localhost:4000" } slugURL
    (by decide) (by decide) (by decide)

/-- C2, at the failing input `proxy --project my-slug http://localhost:3000
https://example.org/app`: the publish-url has the path `/app`, which is neither empty nor
`/`, cobra accepts the two arguments, and `RunE` does not return an error: it calls `run`
with a config whose public URL holds that path, and returns what `run` returns. The
help text of the command says that a path can not be set in the publish-url. -/
theorem publish_url_with_path_reaches_run :
    url.ParseRequestURI "https://example.org/app" =
      .ok { Scheme := "https", Host := "example.org", Path := "/app" } ∧
    ("/app" : String) ≠ "" ∧ ("/app" : String) ≠ "/" ∧
    Args ["http://localhost:3000", "https://example.org/app"] = none ∧
    RunE emptyEnviron "v1" runNil slugFlags ["http://localhost:3000", "https://example.org/app"] =
      ⟨[], [⟨slugFlags,
             { port := 4000
               noJWT := false
               noOpen := true
               upstream := "http://localhost:3000"
               cookieDomain := ""
               publicURL := some { Scheme := "https", Host := "example.org", Path := "/app" }
               oryURL := some slugURL
               pathPrefix := "/.ory"
               defaultRedirectTo :=
                 some { Scheme := "https", Host := "example.org", Path := "/app" } },
             "v1", "cloud"⟩],
        .returned none⟩ := by
  decide

/-- C3: when `--default-redirect-url` is empty, every config handed to `run` has
`defaultRedirectTo` equal to `publicURL`, with one argument or two, and `run` is reached
with such a config as soon as the public URL parses and `getEndpointURL` succeeds; when
the flag is not empty and parses as a request URI, `defaultRedirectTo` is that parse,
whatever the arguments are. -/
theorem default_redirect_is_public_url_or_flag (env : os.Environ) (version : String)
    (run : cobra.Command → config → String → String → Option GoError)
    (cmd : cobra.Command) :
    (cmd.DefaultRedirectURLFlag = "" →
      ∀ args,
        (∀ call ∈ (RunE env version run cmd args).runCalls,
          call.conf.defaultRedirectTo = call.conf.publicURL ∧ call.conf.publicURL ≠ none) ∧
        (∀ u o a,
          url.ParseRequestURI (selfURLString cmd args) = .ok u →
          (getEndpointURL env cmd).result = .ok o →
          args[0]? = some a →
          ∃ conf, (RunE env version run cmd args).runCalls = [⟨cmd, conf, version, "cloud"⟩] ∧
            conf.publicURL = some u ∧ conf.defaultRedirectTo = some u)) ∧
    (∀ r, cmd.DefaultRedirectURLFlag ≠ "" →
      url.ParseRequestURI cmd.DefaultRedirectURLFlag = .ok r →
      ∀ args,
        (∀ call ∈ (RunE env version run cmd args).runCalls,
          call.conf.defaultRedirectTo = some r) ∧
        (∀ u o a,
          url.ParseRequestURI (selfURLString cmd args) = .ok u →
          (getEndpointURL env cmd).result = .ok o →
          args[0]? = some a →
          ∃ conf, (RunE env version run cmd args).runCalls = [⟨cmd, conf, version, "cloud"⟩] ∧
            conf.publicURL = some u ∧ conf.defaultRedirectTo = some r)) := by
  refine ⟨?_, ?_⟩
  · intro hflag args
    have hco : stringsx.Coalesce [cmd.DefaultRedirectURLFlag, selfURLString cmd args] =
        selfURLString cmd args := by
      rw [hflag]; exact stringsx.Coalesce_empty_left _
    refine ⟨?_, ?_⟩
    · intro call hcall
      obtain ⟨u, r, o, a, hu, hr, -, -, hc, -⟩ :=
        RunE_call_inv env version run cmd args call hcall
      rw [hco, hu] at hr
      cases hr
      subst hc
      simp [confOf]
    · intro u o a hu ho ha
      refine ⟨confOf cmd a u o u, ?_, rfl, rfl⟩
      rw [RunE_of_ok env version run cmd args u u o a hu (by rw [hco]; exact hu) ho ha]
  · intro r hflag hr args
    have hco : stringsx.Coalesce [cmd.DefaultRedirectURLFlag, selfURLString cmd args] =
        cmd.DefaultRedirectURLFlag := stringsx.Coalesce_of_ne_empty _ _ hflag
    refine ⟨?_, ?_⟩
    · intro call hcall
      obtain ⟨u, r1, o, a, -, hr1, -, -, hc, -⟩ :=
        RunE_call_inv env version run cmd args call hcall
      rw [hco, hr] at hr1
      cases hr1
      subst hc
      rfl
    · intro u o a hu ho ha
      refine ⟨confOf cmd a u o r, ?_, rfl, rfl⟩
      rw [RunE_of_ok env version run cmd args u r o a hu (by rw [hco]; exact hr) ho ha]

/-- C3, at `proxy --project my-slug http://127.0.0.1:3000` (no flag: the redirect target is
the public URL `http://localhost:4000`) and at `proxy --project my-slug
--default-redirect-url /welcome http://127.0.0.1:3000 https://ory.example.org` (the
redirect target is `/welcome`). -/
theorem default_redirect_is_public_url_or_flag_witness :
    (∃ conf, (RunE emptyEnviron "v1" runNil slugFlags ["http://127.0.0.1:3000"]).runCalls =
        [⟨slugFlags, conf, "v1", "cloud"⟩] ∧
      conf.publicURL = some { Scheme := "http", Host := "localhost:4000" } ∧
      conf.defaultRedirectTo = some { Scheme := "http", Host := "localhost:4000" }) ∧
    (∃ conf, (RunE emptyEnviron "v1" runNil
        { slugFlags with DefaultRedirectURLFlag := "/welcome" }
        ["http://127.0.0.1:3000", "https://ory.example.org"]).runCalls =
        [⟨{ slugFlags with DefaultRedirectURLFlag := "/welcome" }, conf, "v1", "cloud"⟩] ∧
      conf.publicURL = some { Scheme := "https", Host := "ory.example.org" } ∧
      conf.defaultRedirectTo = some { Path := "/welcome" }) :=
  ⟨((default_redirect_is_public_url_or_flag emptyEnviron "v1" runNil slugFlags).1
      (by decide) ["http://127.0.0.1:3000"]).2
      { Scheme := "http", Host := "localhost:4000" } slugURL "http://127.0.0.1:3000"
      (by decide) (by decide) (by decide),
   ((default_redirect_is_public_url_or_flag emptyEnviron "v1" runNil
      { slugFlags with DefaultRedirectURLFlag := "/welcome" }).2 { Path := "/welcome" }
      (by decide) (by decide) ["http://127.0.0.1:3000", "https://ory.example.org"]).2
      { Scheme := "https", Host := "ory.example.org" } slugURL "http://127.0.0.1:3000"
      (by decide) (by decide) (by decide)⟩

/-- C4: `RunE` runs three steps in order: the parse of the public URL string, the parse
of the default-redirect URL string, and `getEndpointURL`. When a step fails, `RunE`
returns the error of that step and `run` is not invoked; whenever any of the three
fails, `run` is not invoked and `RunE` returns an error. When all three succeed, in an
invocation whose arguments cobra accepted, `run` is invoked exactly once, with a config
whose `publicURL`, `oryURL` and `defaultRedirectTo` are the three non-nil results, and
`RunE` returns what `run` returns. `run` is never invoked in any other case, nor more
than once. -/
theorem config_errors_are_fatal_before_run (env : os.Environ) (version : String)
    (run : cobra.Command → config → String → String → Option GoError)
    (cmd : cobra.Command) (args : List String) :
    (∀ e, url.ParseRequestURI (selfURLString cmd args) = .error e →
      (RunE env version run cmd args).ret = .returned (some (.url e)) ∧
      (RunE env version run cmd args).runCalls = []) ∧
    (∀ u e, url.ParseRequestURI (selfURLString cmd args) = .ok u →
      url.ParseRequestURI
        (stringsx.Coalesce [cmd.DefaultRedirectURLFlag, selfURLString cmd args]) = .error e →
      (RunE env version run cmd args).ret = .returned (some (.url e)) ∧
      (RunE env version run cmd args).runCalls = []) ∧
    (∀ u r e, url.ParseRequestURI (selfURLString cmd args) = .ok u →
      url.ParseRequestURI
        (stringsx.Coalesce [cmd.DefaultRedirectURLFlag, selfURLString cmd args]) = .ok r →
      (getEndpointURL env cmd).result = .error e →
      (RunE env version run cmd args).ret = .returned (some e) ∧
      (RunE env version run cmd args).runCalls = []) ∧
    (((url.ParseRequestURI (selfURLString cmd args)).toOption = none ∨
      (url.ParseRequestURI (stringsx.Coalesce
        [cmd.DefaultRedirectURLFlag, selfURLString cmd args])).toOption = none ∨
      (getEndpointURL env cmd).result.toOption = none) →
      (RunE env version run cmd args).runCalls = [] ∧
      ∃ e, (RunE env version run cmd args).ret = .returned (some e)) ∧
    (∀ u r o, url.ParseRequestURI (selfURLString cmd args) = .ok u →
      url.ParseRequestURI
        (stringsx.Coalesce [cmd.DefaultRedirectURLFlag, selfURLString cmd args]) = .ok r →
      (getEndpointURL env cmd).result = .ok o →
      Args args = none →
      ∃ conf, (RunE env version run cmd args).runCalls = [⟨cmd, conf, version, "cloud"⟩] ∧
        (RunE env version run cmd args).ret = .returned (run cmd conf version "cloud") ∧
        conf.publicURL = some u ∧ conf.oryURL = some o ∧ conf.defaultRedirectTo = some r) ∧
    (∀ call ∈ (RunE env version run cmd args).runCalls,
      (RunE env version run cmd args).runCalls = [call] ∧
      call.conf.publicURL ≠ none ∧ call.conf.oryURL ≠ none ∧
      call.conf.defaultRedirectTo ≠ none ∧
      call.conf.publicURL = (url.ParseRequestURI (selfURLString cmd args)).toOption ∧
      call.conf.defaultRedirectTo = (url.ParseRequestURI (stringsx.Coalesce
        [cmd.DefaultRedirectURLFlag, selfURLString cmd args])).toOption ∧
      call.conf.oryURL = (getEndpointURL env cmd).result.toOption) ∧
    (Args args = none → (RunE env version run cmd args).ret ≠ .panicked) := by
  have h1 : ∀ e, url.ParseRequestURI (selfURLString cmd args) = .error e →
      (RunE env version run cmd args).ret = .returned (some (.url e)) ∧
      (RunE env version run cmd args).runCalls = [] := by
    intro e he
    rw [RunE_of_self_error env version run cmd args e he]
    exact ⟨rfl, rfl⟩
  have h2 : ∀ u e, url.ParseRequestURI (selfURLString cmd args) = .ok u →
      url.ParseRequestURI
        (stringsx.Coalesce [cmd.DefaultRedirectURLFlag, selfURLString cmd args]) = .error e →
      (RunE env version run cmd args).ret = .returned (some (.url e)) ∧
      (RunE env version run cmd args).runCalls = [] := by
    intro u e hu he
    rw [RunE_of_redirect_error env version run cmd args u e hu he]
    exact ⟨rfl, rfl⟩
  have h3 : ∀ u r e, url.ParseRequestURI (selfURLString cmd args) = .ok u →
      url.ParseRequestURI
        (stringsx.Coalesce [cmd.DefaultRedirectURLFlag, selfURLString cmd args]) = .ok r →
      (getEndpointURL env cmd).result = .error e →
      (RunE env version run cmd args).ret = .returned (some e) ∧
      (RunE env version run cmd args).runCalls = [] := by
    intro u r e hu hr he
    rw [RunE_of_endpoint_error env version run cmd args u r e hu hr he]
    exact ⟨rfl, rfl⟩
  refine ⟨h1, h2, h3, ?_, ?_, ?_, ?_⟩
  · intro hfail
    cases hu : url.ParseRequestURI (selfURLString cmd args) with
    | error e => exact ⟨(h1 e hu).2, _, (h1 e hu).1⟩
    | ok u =>
      cases hr : url.ParseRequestURI
          (stringsx.Coalesce [cmd.DefaultRedirectURLFlag, selfURLString cmd args]) with
      | error e => exact ⟨(h2 u e hu hr).2, _, (h2 u e hu hr).1⟩
      | ok r =>
        cases ho : (getEndpointURL env cmd).result with
        | error e => exact ⟨(h3 u r e hu hr ho).2, _, (h3 u r e hu hr ho).1⟩
        | ok o => simp [hu, hr, ho, Except.toOption] at hfail
  · intro u r o hu hr ho hargs
    obtain ⟨a, ha⟩ := head_of_Args args hargs
    refine ⟨confOf cmd a u o r, ?_, ?_, rfl, rfl, rfl⟩ <;>
      rw [RunE_of_ok env version run cmd args u r o a hu hr ho ha]
  · intro call hcall
    obtain ⟨u, r, o, a, hu, hr, ho, -, hc, hall⟩ :=
      RunE_call_inv env version run cmd args call hcall
    subst hc
    simp [hall, hu, hr, ho, confOf, Except.toOption]
  · intro hargs
    obtain ⟨a, ha⟩ := head_of_Args args hargs
    cases hu : url.ParseRequestURI (selfURLString cmd args) with
    | error e => rw [(h1 e hu).1]; simp
    | ok u =>
      cases hr : url.ParseRequestURI
          (stringsx.Coalesce [cmd.DefaultRedirectURLFlag, selfURLString cmd args]) with
      | error e => rw [(h2 u e hu hr).1]; simp
      | ok r =>
        cases ho : (getEndpointURL env cmd).result with
        | error e => rw [(h3 u r e hu hr ho).1]; simp
        | ok o => rw [RunE_of_ok env version run cmd args u r o a hu hr ho ha]; simp

/-- C4, at `proxy http://localhost:3000 https://example.org` without `--project` and with
no environment variable set: `getEndpointURL` fails, and at `proxy --project my-slug
http://localhost:3000 https://example.org`: `run` is invoked once. -/
theorem config_errors_are_fatal_before_run_witness :
    ((RunE emptyEnviron "v1" runNil (defaultFlags 4000)
        ["http://localhost:3000", "https://example.org"]).ret =
      .returned (some
        (.errorf "Please provide your project slug using the --project flag." [])) ∧
     (RunE emptyEnviron "v1" runNil (defaultFlags 4000)
        ["http://localhost:3000", "https://example.org"]).runCalls = []) ∧
    (∃ conf, (RunE emptyEnviron "v1" runNil slugFlags
        ["http://localhost:3000", "https://example.org"]).runCalls =
        [⟨slugFlags, conf, "v1", "cloud"⟩] ∧
      (RunE emptyEnviron "v1" runNil slugFlags
        ["http://localhost:3000", "https://example.org"]).ret =
        .returned (runNil slugFlags conf "v1" "cloud") ∧
      conf.publicURL = some { Scheme := "https", Host := "example.org" } ∧
      conf.oryURL = some slugURL ∧
      conf.defaultRedirectTo = some { Scheme := "https", Host := "example.org" }) :=
  ⟨(config_errors_are_fatal_before_run emptyEnviron "v1" runNil (defaultFlags 4000)
      ["http://localhost:3000", "https://example.org"]).2.2.1
      { Scheme := "https", Host := "example.org" } { Scheme := "https", Host := "example.org" }
      _ (by decide) (by decide) (by decide),
   (config_errors_are_fatal_before_run emptyEnviron "v1" runNil slugFlags
      ["http://localhost:3000", "https://example.org"]).2.2.2.2.1
      { Scheme := "https", Host := "example.org" } { Scheme := "https", Host := "example.org" }
      slugURL (by decide) (by decide) (by decide) (by decide)⟩

/-- C5: `getEndpointURL` fails with "Please provide your project slug using the --project
flag." if and only if `ORY_KRATOS_URL` and `ORY_SDK_URL` are both empty or unset and the
`--project` flag is empty. In every other case a non-empty target is selected (the first
non-empty of `ORY_KRATOS_URL` and `ORY_SDK_URL`, else the project's URL made from the
slug), and the result is the parse of the target, or the error "Unable to parse ... as an
URL" that holds the target and the parse error. -/
theorem getEndpointURL_fails_iff (env : os.Environ) (cmd : cobra.Command) :
    ((getEndpointURL env cmd).result =
        .error (.errorf "Please provide your project slug using the --project flag." []) ↔
      (env "ORY_KRATOS_URL" = none ∨ env "ORY_KRATOS_URL" = some "") ∧
      (env "ORY_SDK_URL" = none ∨ env "ORY_SDK_URL" = some "") ∧
      cmd.ProjectFlag = "") ∧
    (¬((env "ORY_KRATOS_URL" = none ∨ env "ORY_KRATOS_URL" = some "") ∧
        (env "ORY_SDK_URL" = none ∨ env "ORY_SDK_URL" = some "") ∧
        cmd.ProjectFlag = "") →
      ∃ target, target ≠ "" ∧
        target =
          (if os.Getenv env "ORY_KRATOS_URL" ≠ "" then os.Getenv env "ORY_KRATOS_URL"
           else if os.Getenv env "ORY_SDK_URL" ≠ "" then os.Getenv env "ORY_SDK_URL"
           else "https://" ++ cmd.ProjectFlag ++ ".projects.oryapis.com/") ∧
        ((∃ u, url.ParseRequestURI target = .ok u ∧ (getEndpointURL env cmd).result = .ok u) ∨
         (∃ err, url.ParseRequestURI target = .error err ∧
            (getEndpointURL env cmd).result =
              .error (.errorf "Unable to parse \"%s\" as an URL: %s"
                [.inl target, .inr err])))) := by
  rw [← os.Getenv_eq_empty_iff, ← os.Getenv_eq_empty_iff]
  have hco := stringsx.Coalesce_two (os.Getenv env "ORY_KRATOS_URL") (os.Getenv env "ORY_SDK_URL")
  by_cases hK : os.Getenv env "ORY_KRATOS_URL" = ""
  · by_cases hS : os.Getenv env "ORY_SDK_URL" = ""
    · have hc : stringsx.Coalesce
          [os.Getenv env "ORY_KRATOS_URL", os.Getenv env "ORY_SDK_URL"] = "" := by
        rw [hco]; simp [hK, hS]
      by_cases hP : cmd.ProjectFlag = ""
      · rw [getEndpointURL_of_nothing env cmd hc hP]
        simp [hK, hS, hP]
      · rw [getEndpointURL_of_slug env cmd hc hP]
        refine ⟨?_, ?_⟩
        · simp [hP, proxy.parseTarget_ne_slug_error]
        · intro _
          refine ⟨_, slugTarget_ne_empty cmd.ProjectFlag, by simp [hK, hS], ?_⟩
          unfold proxy.parseTarget
          cases hparse : url.ParseRequestURI
            ("https://" ++ cmd.ProjectFlag ++ ".projects.oryapis.com/") with
          | error err => exact Or.inr ⟨err, rfl, rfl⟩
          | ok u => exact Or.inl ⟨u, rfl, rfl⟩
    · have hc : stringsx.Coalesce
          [os.Getenv env "ORY_KRATOS_URL", os.Getenv env "ORY_SDK_URL"] =
          os.Getenv env "ORY_SDK_URL" := by
        rw [hco]; simp [hK, hS]
      rw [getEndpointURL_of_fromEnv env cmd (by rw [hc]; exact hS), hc]
      refine ⟨?_, ?_⟩
      · simp [hS, proxy.parseTarget_ne_slug_error]
      · intro _
        refine ⟨_, hS, by simp [hK, hS], ?_⟩
        unfold proxy.parseTarget
        cases hparse : url.ParseRequestURI (os.Getenv env "ORY_SDK_URL") with
        | error err => exact Or.inr ⟨err, rfl, rfl⟩
        | ok u => exact Or.inl ⟨u, rfl, rfl⟩
  · have hc : stringsx.Coalesce
        [os.Getenv env "ORY_KRATOS_URL", os.Getenv env "ORY_SDK_URL"] =
        os.Getenv env "ORY_KRATOS_URL" := by
      rw [hco]; simp [hK]
    rw [getEndpointURL_of_fromEnv env cmd (by rw [hc]; exact hK), hc]
    refine ⟨?_, ?_⟩
    · simp [hK, proxy.parseTarget_ne_slug_error]
    · intro _
      refine ⟨_, hK, by simp [hK], ?_⟩
      unfold proxy.parseTarget
      cases hparse : url.ParseRequestURI (os.Getenv env "ORY_KRATOS_URL") with
      | error err => exact Or.inr ⟨err, rfl, rfl⟩
      | ok u => exact Or.inl ⟨u, rfl, rfl⟩

/-- C5, at three inputs: nothing set (the slug error); `ORY_SDK_URL` set to a URL (the
target is that URL, parsed); `ORY_SDK_URL` set to `not a url` (the target is selected
and the failure is the "Unable to parse" error). -/
theorem getEndpointURL_fails_iff_witness :
    (getEndpointURL emptyEnviron (defaultFlags 4000)).result =
      .error (.errorf "Please provide your project slug using the --project flag." []) ∧
    (∃ target, target ≠ "" ∧
      target =
        (if os.Getenv (sdkEnviron "not a url") "ORY_KRATOS_URL" ≠ "" then
          os.Getenv (sdkEnviron "not a url") "ORY_KRATOS_URL"
         else if os.Getenv (sdkEnviron "not a url") "ORY_SDK_URL" ≠ "" then
          os.Getenv (sdkEnviron "not a url") "ORY_SDK_URL"
         else "https://" ++ slugFlags.ProjectFlag ++ ".projects.oryapis.com/") ∧
      ((∃ u, url.ParseRequestURI target = .ok u ∧
          (getEndpointURL (sdkEnviron "not a url") slugFlags).result = .ok u) ∨
       (∃ err, url.ParseRequestURI target = .error err ∧
          (getEndpointURL (sdkEnviron "not a url") slugFlags).result =
            .error (.errorf "Unable to parse \"%s\" as an URL: %s"
              [.inl target, .inr err])))) :=
  ⟨(getEndpointURL_fails_iff emptyEnviron (defaultFlags 4000)).1.2
      ⟨Or.inl rfl, Or.inl rfl, rfl⟩,
   (getEndpointURL_fails_iff (sdkEnviron "not a url") slugFlags).2 (by decide)⟩

end proxy
